import Mathlib

/-!
# Verification of the chaim-cli Snapshot Resolution & Table Grouping Engine

Shallow embedding of the snapshot-discovery service
(`src/services/snapshot-discovery.ts`) and of the generation orchestrator
(`generateFromSnapshots`, `resolveRegion`, `createTableMetadataFromSnapshot`
in `src/commands/*.ts`), together with theorems settling the testable
properties of the specification.

Modelling conventions:
* Filenames and paths are modelled as `List Char` (Lean's `String`
  primitives such as `endsWith` do not reduce in the kernel; character
  lists make every definition evaluable by `decide`).
* The filesystem as observed by the discovery module (`existsSync`,
  `readdirSync`, `statSync`) is a pair of optional directory listings,
  one per snapshot mode; `none` models a directory that does not exist.
* JavaScript `Date` modification times are modelled by their
  `getTime()` value, an integer number of milliseconds.
* The stable JavaScript `Array.prototype.sort` is modelled by Mathlib's
  (stable) `List.insertionSort` under the comparator's order.
-/

namespace SnapshotDiscovery

/-- Snapshot mode: preview or registered (`SnapshotMode` in the source). -/
inductive SnapshotMode where
  | preview
  | registered
deriving DecidableEq, Repr

/-- Requested mode option: a concrete mode or `auto`
(`SnapshotModeOption` in the source). -/
inductive SnapshotModeOption where
  | preview
  | registered
  | auto
deriving DecidableEq, Repr

/-- One directory entry as observed through `readdirSync` + `statSync`:
its name, whether `stat.isFile()` holds, and its modification time. -/
structure DirEntry where
  name : List Char
  isFile : Bool
  mtime : Int
deriving DecidableEq, Repr

/-- The filesystem state visible to the discovery module: the listing of
the `preview` and `registered` mode directories under the snapshot root
(`none` when `fs.existsSync(modeDir)` is false). -/
structure FsState where
  previewDir : Option (List DirEntry)
  registeredDir : Option (List DirEntry)
deriving DecidableEq, Repr

/-- The mode directory consulted for a given mode
(`path.join(snapshotDir, mode)` + `existsSync`/`readdirSync`). -/
def modeDir (fs : FsState) : SnapshotMode → Option (List DirEntry)
  | .preview => fs.previewDir
  | .registered => fs.registeredDir

/-- The on-disk name of the mode subdirectory. -/
def modeDirName : SnapshotMode → List Char
  | .preview => "preview".toList
  | .registered => "registered".toList

/-- The `.json` filename suffix. -/
def jsonExt : List Char := ".json".toList

/-- `filename.endsWith('.json')`. -/
def endsWithJson (name : List Char) : Bool := jsonExt.isSuffixOf name

/-- Information about a discovered snapshot file
(`SnapshotFileInfo` in the source). -/
structure SnapshotFileInfo where
  filePath : List Char
  stackName : List Char
  mode : SnapshotMode
  mtime : Int
  eventId : Option (List Char)
deriving DecidableEq, Repr

/-- `parsePreviewFilename`: a preview filename is `<stackName>.json`
with non-empty stack name; returns the stack name. -/
def parsePreviewFilename (filename : List Char) : Option (List Char) :=
  if endsWithJson filename then
    let stackName := filename.take (filename.length - 5)
    if stackName = [] then none else some stackName
  else none

/-- The character class `[0-9a-f]` with the `i` (ignore-case) flag. -/
def isHexChar (c : Char) : Bool := ("0123456789abcdefABCDEF".toList).contains c

/-- The UUID segment of the registered-filename regex: 8-4-4-4-12 hex
characters with hyphens at offsets 8, 13, 18 and 23 (36 characters). -/
def isUuidSegment (cs : List Char) : Bool :=
  cs.length = 36 &&
  (List.range 36).all fun i =>
    if i = 8 ∨ i = 13 ∨ i = 18 ∨ i = 23 then cs.getD i ' ' = '-'
    else isHexChar (cs.getD i ' ')

/-- Result of parsing a registered filename: stack name and event id. -/
structure RegisteredName where
  stackName : List Char
  eventId : List Char
deriving DecidableEq, Repr

/-- `parseRegisteredFilename`: a registered filename is
`<stackName>-<eventId>.json`, checked with the anchored regex
`^(.+)-([0-9a-f]{8}-[0-9a-f]{4}-[0-9a-f]{4}-[0-9a-f]{4}-[0-9a-f]{12})$/i`
against the basename.  The UUID group has fixed length 36 and is
anchored at the end, so the regex matches exactly when the basename ends
in `-` followed by a 36-character UUID segment with a non-empty prefix;
the captured stack name is everything before that final hyphen. -/
def parseRegisteredFilename (filename : List Char) : Option RegisteredName :=
  if endsWithJson filename then
    let baseName := filename.take (filename.length - 5)
    let n := baseName.length
    if 38 ≤ n ∧ baseName.getD (n - 37) ' ' = '-' ∧ isUuidSegment (baseName.drop (n - 36))
    then some ⟨baseName.take (n - 37), baseName.drop (n - 36)⟩
    else none
  else none

/-- The body of the `listSnapshots` loop for one directory entry:
skip non-`.json` names, skip non-files, then parse according to the mode
and build the `SnapshotFileInfo` (with `filePath = path.join(modeDir, file)`). -/
def snapshotInfoOfEntry (mode : SnapshotMode) (e : DirEntry) : Option SnapshotFileInfo :=
  if endsWithJson e.name = false then none
  else if e.isFile = false then none
  else
    match mode with
    | .preview =>
        (parsePreviewFilename e.name).map fun stackName =>
          { filePath := modeDirName .preview ++ '/' :: e.name
            stackName := stackName
            mode := .preview
            mtime := e.mtime
            eventId := none }
    | .registered =>
        (parseRegisteredFilename e.name).map fun p =>
          { filePath := modeDirName .registered ++ '/' :: e.name
            stackName := p.stackName
            mode := .registered
            mtime := e.mtime
            eventId := some p.eventId }

/-- The sorting relation of `snapshots.sort((a, b) => b.mtime.getTime() - a.mtime.getTime())`:
`a` may come before `b` when `b`'s mtime is at most `a`'s (descending). -/
def mtimeGe (a b : SnapshotFileInfo) : Prop := b.mtime ≤ a.mtime

instance : DecidableRel mtimeGe :=
  fun a b => inferInstanceAs (Decidable (b.mtime ≤ a.mtime))

instance : IsTotal SnapshotFileInfo mtimeGe := ⟨fun a b => le_total b.mtime a.mtime⟩

instance : IsTrans SnapshotFileInfo mtimeGe := ⟨fun _ _ _ h1 h2 => le_trans h2 h1⟩

/-- `listSnapshots(snapshotDir, mode)`: empty when the mode directory
does not exist; otherwise every entry that survives the `.json`, file
and filename-pattern checks, sorted by modification time descending
(newest first) with a stable sort. -/
def listSnapshots (fs : FsState) (mode : SnapshotMode) : List SnapshotFileInfo :=
  match modeDir fs mode with
  | none => []
  | some files => List.insertionSort mtimeGe (files.filterMap (snapshotInfoOfEntry mode))

/-- `listSnapshotsForStack(snapshotDir, mode, stackName)`. -/
def listSnapshotsForStack (fs : FsState) (mode : SnapshotMode) (stackName : List Char) :
    List SnapshotFileInfo :=
  (listSnapshots fs mode).filter fun s => s.stackName = stackName

/-- The snapshot set consulted by `getLatestSnapshot`: stack-filtered
when a stack name is supplied, otherwise all snapshots of the mode. -/
def matchingSnapshots (fs : FsState) (mode : SnapshotMode) (stackName : Option (List Char)) :
    List SnapshotFileInfo :=
  match stackName with
  | some st => listSnapshotsForStack fs mode st
  | none => listSnapshots fs mode

/-- `getLatestSnapshot(snapshotDir, mode, stackName?)`: `snapshots[0]` of
the (already mtime-descending) matching list. -/
def getLatestSnapshot (fs : FsState) (mode : SnapshotMode) (stackName : Option (List Char)) :
    Option SnapshotFileInfo :=
  (matchingSnapshots fs mode stackName).head?

/-- `hasSnapshots(snapshotDir, mode)`: the mode directory exists and some
entry name ends in `.json` (note: no `isFile` check and no filename
pattern check, unlike `listSnapshots`). -/
def hasSnapshots (fs : FsState) (mode : SnapshotMode) : Bool :=
  match modeDir fs mode with
  | none => false
  | some files => files.any fun f => endsWithJson f.name

/-- The resolved snapshot (`ResolvedSnapshot` in the source).  The source
also carries the parsed JSON payload read from `filePath`; that file read
is orthogonal to mode selection and snapshot choice and is elided here. -/
structure ResolvedSnapshot where
  modeUsed : SnapshotMode
  filePath : List Char
  stackName : List Char
deriving DecidableEq, Repr

/-- `resolveSnapshot(snapshotDir, requestedMode, stackName?)`.
Auto mode: with a stack filter, prefer registered-for-stack, else
preview-for-stack, else not found; without a filter, prefer
`hasSnapshots(registered)`, else `hasSnapshots(preview)`, else not
found.  An explicit mode is used as-is.  The latest snapshot of the
chosen mode (if any) is returned. -/
def resolveSnapshot (fs : FsState) (requestedMode : SnapshotModeOption)
    (stackName : Option (List Char)) : Option ResolvedSnapshot :=
  let modeToUse? : Option SnapshotMode :=
    match requestedMode with
    | .auto =>
        match stackName with
        | some st =>
            if 0 < (listSnapshotsForStack fs .registered st).length then some .registered
            else if 0 < (listSnapshotsForStack fs .preview st).length then some .preview
            else none
        | none =>
            if hasSnapshots fs .registered then some .registered
            else if hasSnapshots fs .preview then some .preview
            else none
    | .preview => some .preview
    | .registered => some .registered
  match modeToUse? with
  | none => none
  | some modeToUse =>
      match getLatestSnapshot fs modeToUse stackName with
      | none => none
      | some info => some ⟨modeToUse, info.filePath, info.stackName⟩

end SnapshotDiscovery

namespace GenerateCommand

/-- The process environment as consulted by `resolveRegion`
(`process.env.AWS_REGION`, `process.env.AWS_DEFAULT_REGION`); `none`
models an unset variable. -/
structure EnvConfig where
  awsRegion : Option String
  awsDefaultRegion : Option String
deriving DecidableEq, Repr

/-- JavaScript truthiness of an optional string: set and non-empty. -/
def truthy : Option String → Bool
  | none => false
  | some s => !(s = "")

/-- JavaScript `a || b` on optional strings: `b` when `a` is falsy. -/
def jsOr (a b : Option String) : Option String := if truthy a then a else b

/-- The fallback chain of `resolveRegion`:
`process.env.AWS_REGION || process.env.AWS_DEFAULT_REGION || 'us-east-1'`. -/
def envRegionFallback (env : EnvConfig) : String :=
  if truthy env.awsRegion then env.awsRegion.getD ""
  else if truthy env.awsDefaultRegion then env.awsDefaultRegion.getD ""
  else "us-east-1"

/-- `resolveRegion(snapshotRegion)`: keep a truthy region different from
the sentinel `'unknown'`, otherwise fall back to the environment chain. -/
def resolveRegion (env : EnvConfig) (snapshotRegion : Option String) : String :=
  match snapshotRegion with
  | some r => if r ≠ "" ∧ r ≠ "unknown" then r else envRegionFallback env
  | none => envRegionFallback env

/-- Modelled from the spec: the `DynamoDBMetadata` resource-metadata
block of a snapshot payload (its type declaration lives in the CLI's
`types` module, which is not part of this tree).  The fields are the
ones read by `createTableMetadataFromSnapshot`; optional strings model
possibly-absent JSON fields.  Secondary-index lists are passed through
opaquely and modelled as string lists. -/
structure DynamoDBMetadata where
  name : Option String
  tableName : Option String
  arn : Option String
  tableArn : Option String
  region : Option String
  partitionKey : Option String
  sortKey : Option String
  globalSecondaryIndexes : List String
  localSecondaryIndexes : List String
deriving DecidableEq, Repr

/-- Modelled from the spec: the `StackContext` block of a snapshot
payload (type declaration not in this tree); only its `region` field is
read by `createTableMetadataFromSnapshot`. -/
structure StackContext where
  region : Option String
deriving DecidableEq, Repr

/-- The plain table-metadata object handed to the external generator
(`TableMetadata` in the source). -/
structure TableMetadata where
  tableName : Option String
  tableArn : Option String
  region : String
  partitionKey : Option String
  sortKey : Option String
  globalSecondaryIndexes : List String
  localSecondaryIndexes : List String
deriving DecidableEq, Repr

/-- `createTableMetadataFromSnapshot(dataStore, context)`: resolve the
context-level and resource-level regions independently through
`resolveRegion`, combine them (`contextRegion` unless it is the default
and the data store declares a truthy region), and copy the remaining
fields, with `tableName`/`tableArn` falling back to the legacy
`name`/`arn` fields under JavaScript `||`. -/
def createTableMetadataFromSnapshot (env : EnvConfig) (dataStore : DynamoDBMetadata)
    (context : Option StackContext) : TableMetadata :=
  let contextRegion := resolveRegion env (context.bind (·.region))
  let dataStoreRegion := resolveRegion env dataStore.region
  let resolvedRegion :=
    if contextRegion ≠ "us-east-1" ∨ truthy dataStore.region = false
    then contextRegion else dataStoreRegion
  { tableName := jsOr dataStore.tableName dataStore.name
    tableArn := jsOr dataStore.tableArn dataStore.arn
    region := resolvedRegion
    partitionKey := dataStore.partitionKey
    sortKey := dataStore.sortKey
    globalSecondaryIndexes := dataStore.globalSecondaryIndexes
    localSecondaryIndexes := dataStore.localSecondaryIndexes }

/-- Modelled from the spec: the action recorded in a resolved snapshot,
`UPSERT` or `DELETE` (spec §3). -/
inductive SnapshotAction where
  | UPSERT
  | DELETE
deriving DecidableEq, Repr

/-- Modelled from the spec: the canonical `ResolvedSnapshot` produced by
the cache-layout discovery service and consumed by
`generateFromSnapshots` (the producing service's source is not part of
this tree; the spec's §3 data model and the orchestrator's field
accesses fix its shape).  Spec invariant carried by the producer:
`action = DELETE` implies `schema` is absent.  The parsed entity schema
is passed through opaquely to the generator and modelled as a string. -/
structure ResolvedSnapshot where
  accountId : String
  region : String
  stackName : String
  datastoreType : String
  entityName : String
  resourceName : String
  action : SnapshotAction
  schema : Option String
  dataStore : DynamoDBMetadata
  context : Option StackContext
deriving DecidableEq, Repr

/-- The CLI options read by `generateFromSnapshots`. -/
structure GenerateOptions where
  packageName : String
  output : String
deriving DecidableEq, Repr

/-- The external generator contract
(`javaGenerator.generate(schema, packageName, options.output, tableMetadata)`),
modelled as a function returning `ok` or a thrown error message. -/
def Generator : Type :=
  Option String → String → String → TableMetadata → Except String Unit

/-- One entry of the per-entity result list built by `generateFromSnapshots`. -/
structure GenResult where
  entity : String
  resource : String
  success : Bool
  error : Option String
deriving DecidableEq, Repr

/-- The grouping key of `generateFromSnapshots`:
`` `${snap.accountId}/${snap.region}/${snap.stackName}/${snap.datastoreType}` ``. -/
def groupKey (s : ResolvedSnapshot) : String :=
  s.accountId ++ "/" ++ s.region ++ "/" ++ s.stackName ++ "/" ++ s.datastoreType

/-- One step of building the grouping `Map`: append the snapshot to its
key's list when the key is already present (JavaScript `Map` keeps keys
in insertion order and `push` appends), otherwise add a new singleton
group at the end. -/
def insertGrouped (gs : List (String × List ResolvedSnapshot)) (s : ResolvedSnapshot) :
    List (String × List ResolvedSnapshot) :=
  match gs with
  | [] => [(groupKey s, [s])]
  | (k, g) :: rest =>
      if k = groupKey s then (k, g ++ [s]) :: rest
      else (k, g) :: insertGrouped rest s

/-- The grouping loop of `generateFromSnapshots`: fold the snapshot list
into an insertion-ordered association list of groups. -/
def groupSnapshots (snapshots : List ResolvedSnapshot) :
    List (String × List ResolvedSnapshot) :=
  snapshots.foldl insertGrouped []

/-- The body of the inner generation loop for one resolved snapshot:
build the table metadata, invoke the generator inside `try`/`catch`, and
record the per-entity result. -/
def runOne (env : EnvConfig) (gen : Generator) (options : GenerateOptions)
    (resolved : ResolvedSnapshot) : GenResult :=
  let tableMetadata := createTableMetadataFromSnapshot env resolved.dataStore resolved.context
  match gen resolved.schema options.packageName options.output tableMetadata with
  | .ok _ => { entity := resolved.entityName, resource := resolved.resourceName
               success := true, error := none }
  | .error e => { entity := resolved.entityName, resource := resolved.resourceName
                  success := false, error := some e }

/-- `generateFromSnapshots(snapshots, options)`: group the snapshots,
run the generator once per member of every group collecting the
per-entity results, and exit with failure (`process.exit(1)`) exactly
when the failure count is positive.  Console/spinner output is elided;
the returned flag is the process-level failure. -/
def generateFromSnapshots (env : EnvConfig) (gen : Generator)
    (snapshots : List ResolvedSnapshot) (options : GenerateOptions) :
    List GenResult × Bool :=
  let grouped := groupSnapshots snapshots
  let results := ((grouped.map Prod.snd).flatten).map (runOne env gen options)
  let failCount := (results.filter fun r => r.success = false).length
  (results, decide (0 < failCount))

end GenerateCommand

namespace SnapshotDiscovery

theorem insertionSort_eq_nil_iff {l : List SnapshotFileInfo} :
    List.insertionSort mtimeGe l = [] ↔ l = [] := by
  constructor
  · intro h
    have hp := List.perm_insertionSort mtimeGe l
    rw [h] at hp
    exact hp.symm.eq_nil
  · intro h
    subst h
    rfl

theorem snapshotInfoOfEntry_endsWithJson {mode : SnapshotMode} {e : DirEntry}
    {info : SnapshotFileInfo} (h : snapshotInfoOfEntry mode e = some info) :
    endsWithJson e.name = true := by
  by_cases hj : endsWithJson e.name = true
  · exact hj
  · rw [Bool.not_eq_true] at hj
    rw [snapshotInfoOfEntry.eq_def, hj] at h
    simp at h

theorem hasSnapshots_of_listSnapshots_ne_nil (fs : FsState) (mode : SnapshotMode)
    (h : listSnapshots fs mode ≠ []) : hasSnapshots fs mode = true := by
  rw [listSnapshots] at h
  rw [hasSnapshots]
  cases hd : modeDir fs mode with
  | none => rw [hd] at h; exact absurd rfl h
  | some files =>
    rw [hd] at h
    have hne : files.filterMap (snapshotInfoOfEntry mode) ≠ [] := by
      intro hnil
      exact h (insertionSort_eq_nil_iff.mpr hnil)
    obtain ⟨info, hinfo⟩ := List.exists_mem_of_ne_nil _ hne
    obtain ⟨e, he, hpe⟩ := List.mem_filterMap.mp hinfo
    exact List.any_eq_true.mpr ⟨e, he, snapshotInfoOfEntry_endsWithJson hpe⟩

theorem listSnapshots_sorted (fs : FsState) (mode : SnapshotMode) :
    (listSnapshots fs mode).Sorted mtimeGe := by
  rw [listSnapshots]
  cases modeDir fs mode with
  | none => exact List.sorted_nil
  | some files => exact List.sorted_insertionSort mtimeGe _

theorem matchingSnapshots_sorted (fs : FsState) (mode : SnapshotMode)
    (sf : Option (List Char)) : (matchingSnapshots fs mode sf).Sorted mtimeGe := by
  cases sf with
  | none => exact listSnapshots_sorted fs mode
  | some st => exact (listSnapshots_sorted fs mode).filter _

theorem head?_of_ne_nil {l : List SnapshotFileInfo} (h : l ≠ []) :
    ∃ a, l.head? = some a := by
  cases l with
  | nil => exact absurd rfl h
  | cons a t => exact ⟨a, rfl⟩

/-- C9: `listSnapshots` on a mode directory that does not exist returns
the empty list rather than raising an error — discovery is tolerant of a
non-existent root. -/
theorem listSnapshots_tolerates_missing_dir (fs : FsState) (mode : SnapshotMode)
    (h : modeDir fs mode = none) : listSnapshots fs mode = [] := by
  rw [listSnapshots, h]

/-- Witness for C9 at a concrete state with no directories at all. -/
theorem listSnapshots_tolerates_missing_dir_witness :
    modeDir ⟨none, none⟩ .preview = none ∧ listSnapshots ⟨none, none⟩ .preview = [] :=
  ⟨rfl, listSnapshots_tolerates_missing_dir ⟨none, none⟩ .preview rfl⟩

/-- C1: under `requestedMode = auto`, whenever at least one registered
snapshot exists after applying the optional stack filter,
`resolveSnapshot` returns a result and its mode is `registered`,
regardless of the preview snapshots present — registered strictly
dominates preview. -/
theorem resolveSnapshot_auto_registered_dominates (fs : FsState) (sf : Option (List Char))
    (h : matchingSnapshots fs .registered sf ≠ []) :
    ∃ r : ResolvedSnapshot, resolveSnapshot fs .auto sf = some r ∧ r.modeUsed = .registered := by
  obtain ⟨info, hhead⟩ := head?_of_ne_nil h
  refine ⟨⟨.registered, info.filePath, info.stackName⟩, ?_, rfl⟩
  cases sf with
  | some st =>
    have hlen : 0 < (listSnapshotsForStack fs .registered st).length :=
      List.length_pos.mpr h
    rw [resolveSnapshot]
    simp only [if_pos hlen]
    rw [getLatestSnapshot, hhead]
  | none =>
    have hhas : hasSnapshots fs .registered = true :=
      hasSnapshots_of_listSnapshots_ne_nil fs .registered h
    rw [resolveSnapshot]
    simp only [hhas, if_pos]
    rw [getLatestSnapshot, hhead]

/-- Concrete state for the C1 witness: one registered snapshot and one
newer preview snapshot. -/
def fsC1 : FsState :=
  { previewDir := some [⟨"App.json".toList, true, 50⟩]
    registeredDir :=
      some [⟨("App-12345678-1234-1234-1234-123456789abc.json").toList, true, 10⟩] }

/-- Witness for C1: on `fsC1` (auto mode, no stack filter) a registered
snapshot exists, and resolution picks registered despite the newer
preview snapshot. -/
theorem resolveSnapshot_auto_registered_dominates_witness :
    matchingSnapshots fsC1 .registered none ≠ [] ∧
    ∃ r : ResolvedSnapshot, resolveSnapshot fsC1 .auto none = some r ∧ r.modeUsed = .registered :=
  ⟨by decide, resolveSnapshot_auto_registered_dominates fsC1 none (by decide)⟩

/-- The head of the matching list (which is sorted mtime-descending) is
at least as new as every matching snapshot. -/
theorem head_matching_newest (fs : FsState) (mode : SnapshotMode)
    (sf : Option (List Char)) (info : SnapshotFileInfo)
    (h : (matchingSnapshots fs mode sf).head? = some info) :
    ∀ t ∈ matchingSnapshots fs mode sf, t.mtime ≤ info.mtime := by
  have hs := matchingSnapshots_sorted fs mode sf
  intro t ht
  cases hc : matchingSnapshots fs mode sf with
  | nil => rw [hc] at ht; cases ht
  | cons a rest =>
    rw [hc] at h ht hs
    injection h with h
    subst h
    rcases List.mem_cons.mp ht with rfl | ht
    · exact le_refl _
    · exact (List.sorted_cons.mp hs).1 t ht

/-- C7: the snapshot selected by `getLatestSnapshot` (and hence the one
`resolveSnapshot` resolves) has a modification time at least that of
every other snapshot matching the mode and optional stack filter —
newest-by-modification-time wins. -/
theorem getLatestSnapshot_newest_wins (fs : FsState) (mode : SnapshotMode)
    (sf : Option (List Char)) (info : SnapshotFileInfo)
    (h : getLatestSnapshot fs mode sf = some info) :
    ∀ t ∈ matchingSnapshots fs mode sf, t.mtime ≤ info.mtime :=
  head_matching_newest fs mode sf info h

/-- Concrete state for the C7 witness: two preview snapshots with
modification times 3 and 7. -/
def fsC7 : FsState :=
  { previewDir := some [⟨"A.json".toList, true, 3⟩, ⟨"B.json".toList, true, 7⟩]
    registeredDir := none }

/-- The snapshot file info selected on `fsC7`. -/
def infoC7 : SnapshotFileInfo :=
  { filePath := "preview/B.json".toList
    stackName := "B".toList
    mode := .preview
    mtime := 7
    eventId := none }

/-- Witness for C7: on `fsC7` the selected preview snapshot is the one
with modification time 7, and it is at least as new as every match. -/
theorem getLatestSnapshot_newest_wins_witness :
    getLatestSnapshot fsC7 .preview none = some infoC7 ∧
    ∀ t ∈ matchingSnapshots fsC7 .preview none, t.mtime ≤ infoC7.mtime :=
  ⟨by decide, getLatestSnapshot_newest_wins fsC7 .preview none infoC7 (by decide)⟩

end SnapshotDiscovery

namespace SnapshotDiscovery

/-- Extract, from a successful registered-mode loop body, the parsed
filename and the file path of the produced info. -/
theorem snapshotInfoOfEntry_registered_inv {e : DirEntry} {info : SnapshotFileInfo}
    (h : snapshotInfoOfEntry .registered e = some info) :
    ∃ p, parseRegisteredFilename e.name = some p ∧
      info.filePath = modeDirName .registered ++ '/' :: e.name := by
  rw [snapshotInfoOfEntry.eq_def] at h
  split at h
  · cases h
  · split at h
    · cases h
    · obtain ⟨p, hp, hmap⟩ := Option.map_eq_some'.mp h
      exact ⟨p, hp, by rw [← hmap]⟩

/-- Membership in `listSnapshots` comes from a directory entry that
passed all checks. -/
theorem mem_listSnapshots {fs : FsState} {mode : SnapshotMode} {info : SnapshotFileInfo}
    (h : info ∈ listSnapshots fs mode) :
    ∃ files, modeDir fs mode = some files ∧
      ∃ e ∈ files, snapshotInfoOfEntry mode e = some info := by
  rw [listSnapshots] at h
  cases hd : modeDir fs mode with
  | none => rw [hd] at h; cases h
  | some files =>
    rw [hd] at h
    have hperm := List.perm_insertionSort mtimeGe (files.filterMap (snapshotInfoOfEntry mode))
    have hmem := hperm.mem_iff.mp h
    obtain ⟨e, he, hpe⟩ := List.mem_filterMap.mp hmem
    exact ⟨files, rfl, e, he, hpe⟩

/-- Executable rendering of the specification's registered-filename
pattern, following its words: the basename splits as
`<stack>-<uuid>` where the stack part is non-empty and the UUID segment
is an 8-4-4-4-12 hex pattern.  Used to state C6 independently of
`parseRegisteredFilename`. -/
def specMatchesRegisteredBase (base : List Char) : Bool :=
  (List.range base.length).any fun i =>
    decide (0 < i) && decide (base.getD i ' ' = '-') && isUuidSegment (base.drop (i + 1))

/-- A successful parse exhibits the specification pattern. -/
theorem specMatches_of_parseRegistered {nm : List Char} {p : RegisteredName}
    (h : parseRegisteredFilename nm = some p) :
    specMatchesRegisteredBase (nm.take (nm.length - 5)) = true := by
  rw [parseRegisteredFilename] at h
  split at h
  · set base := nm.take (nm.length - 5) with hbase
    dsimp only at h
    split at h
    · rename_i hcond
      obtain ⟨h38, hhyph, huuid⟩ := hcond
      rw [specMatchesRegisteredBase, List.any_eq_true]
      refine ⟨base.length - 37, List.mem_range.mpr (by omega), ?_⟩
      have h1 : (0 < base.length - 37) := by omega
      have h2 : base.length - 37 + 1 = base.length - 36 := by omega
      rw [h2]
      have hhyph' : base[base.length - 37]?.getD ' ' = '-' :=
        (List.getD_eq_getElem?_getD base _ ' ') ▸ hhyph
      simp [h1, hhyph', huuid]
    · cases h
  · cases h

/-- Concrete state of the C6 scenario: the snapshot directory contains
only `registered/Stack-notauuid.json`. -/
def fsC6 : FsState :=
  { previewDir := none
    registeredDir := some [⟨"Stack-notauuid.json".toList, true, 0⟩] }

/-- C6: a file in the registered mode directory whose name ends in
`.json` but whose basename does not match the strict
`<stack>-<uuid>` pattern (UUID being 8-4-4-4-12 hex characters) is
silently skipped by `listSnapshots` — no snapshot with its path is
produced; in particular, on a directory containing only
`registered/Stack-notauuid.json`, listing is empty and resolution
returns "not found". -/
theorem listSnapshots_skips_nonmatching_registered :
    (∀ (fs : FsState) (nm : List Char), endsWithJson nm = true →
        specMatchesRegisteredBase (nm.take (nm.length - 5)) = false →
        modeDirName .registered ++ '/' :: nm ∉
          (listSnapshots fs .registered).map (·.filePath)) ∧
    listSnapshots fsC6 .registered = [] ∧
    resolveSnapshot fsC6 .auto none = none := by
  refine ⟨?_, by decide, by decide⟩
  intro fs nm _ hspec hmem
  obtain ⟨info, hinfo, hpath⟩ := List.mem_map.mp hmem
  obtain ⟨files, _, e, _, hpe⟩ := mem_listSnapshots hinfo
  obtain ⟨p, hp, hfp⟩ := snapshotInfoOfEntry_registered_inv hpe
  rw [hfp] at hpath
  have hname : e.name = nm := by
    have := List.append_cancel_left hpath
    injection this
  rw [hname] at hp
  rw [specMatches_of_parseRegistered hp] at hspec
  cases hspec

/-- Concrete state for the C6 witness: one well-formed registered
snapshot and one `.json` file failing the pattern. -/
def fsC6w : FsState :=
  { previewDir := none
    registeredDir :=
      some [⟨"A-12345678-1234-1234-1234-123456789abc.json".toList, true, 3⟩,
            ⟨"B-xy.json".toList, true, 4⟩] }

/-- Witness for C6: on `fsC6w`, the pattern-failing file `B-xy.json` is
skipped even though it is newer. -/
theorem listSnapshots_skips_nonmatching_registered_witness :
    modeDirName .registered ++ '/' :: "B-xy.json".toList ∉
      (listSnapshots fsC6w .registered).map (·.filePath) :=
  listSnapshots_skips_nonmatching_registered.1 fsC6w ("B-xy.json".toList)
    (by decide) (by decide)

end SnapshotDiscovery

namespace SnapshotDiscovery

/-- Counterexample state for C2: the registered directory holds only a
`.json` file failing the registered pattern, the preview directory holds
one well-formed preview snapshot. -/
def fsC2 : FsState :=
  { previewDir := some [⟨"App.json".toList, true, 5⟩]
    registeredDir := some [⟨"Stack-bad.json".toList, true, 9⟩] }

/-- Counterexample for C2 as stated: on `fsC2` no registered snapshot
exists and a preview snapshot exists, yet `resolveSnapshot` under `auto`
with no stack filter returns "not found" instead of the preview
snapshot (because `hasSnapshots` only checks the `.json` suffix and
commits resolution to the registered mode). -/
theorem resolveSnapshot_auto_preview_counterexample :
    listSnapshots fsC2 .registered = [] ∧
    listSnapshots fsC2 .preview ≠ [] ∧
    resolveSnapshot fsC2 .auto none = none := by decide

/-- C2 (amended): assuming additionally that, when no stack filter is
given, the registered directory contains no `.json`-named entries at all
(`hasSnapshots` is false), `resolveSnapshot` under `auto` returns the
most recently modified matching preview snapshot whenever one exists,
and returns "not found" only when neither mode has a matching
snapshot. -/
theorem resolveSnapshot_auto_preview_fallback (fs : FsState) (sf : Option (List Char))
    (hreg : matchingSnapshots fs .registered sf = [])
    (hjunk : sf = none → hasSnapshots fs .registered = false) :
    (matchingSnapshots fs .preview sf ≠ [] →
      ∃ info, getLatestSnapshot fs .preview sf = some info ∧
        resolveSnapshot fs .auto sf = some ⟨.preview, info.filePath, info.stackName⟩ ∧
        ∀ t ∈ matchingSnapshots fs .preview sf, t.mtime ≤ info.mtime) ∧
    (resolveSnapshot fs .auto sf = none → matchingSnapshots fs .preview sf = []) := by
  have hmain : matchingSnapshots fs .preview sf ≠ [] →
      ∃ info, getLatestSnapshot fs .preview sf = some info ∧
        resolveSnapshot fs .auto sf = some ⟨.preview, info.filePath, info.stackName⟩ ∧
        ∀ t ∈ matchingSnapshots fs .preview sf, t.mtime ≤ info.mtime := by
    intro hp
    obtain ⟨info, hhead⟩ := head?_of_ne_nil hp
    have hlatest : getLatestSnapshot fs .preview sf = some info := hhead
    refine ⟨info, hlatest, ?_, head_matching_newest fs .preview sf info hhead⟩
    cases sf with
    | some st =>
      have hreg0 : ¬ 0 < (listSnapshotsForStack fs .registered st).length := by
        rw [show listSnapshotsForStack fs .registered st =
              matchingSnapshots fs .registered (some st) from rfl, hreg]
        simp
      have hprev : 0 < (listSnapshotsForStack fs .preview st).length :=
        List.length_pos.mpr hp
      rw [resolveSnapshot]
      simp only [if_neg hreg0, if_pos hprev]
      rw [getLatestSnapshot] at hlatest
      rw [show matchingSnapshots fs .preview (some st) =
            listSnapshotsForStack fs .preview st from rfl] at hlatest
      simp [getLatestSnapshot, matchingSnapshots, hlatest]
    | none =>
      have hhas : hasSnapshots fs .registered = false := hjunk rfl
      have hprev : hasSnapshots fs .preview = true :=
        hasSnapshots_of_listSnapshots_ne_nil fs .preview hp
      rw [resolveSnapshot]
      simp only [hhas, hprev, Bool.false_eq_true, if_false, if_true]
      rw [getLatestSnapshot, hhead]
  refine ⟨hmain, ?_⟩
  intro hnone
  by_contra hp
  obtain ⟨info, _, hsome, _⟩ := hmain hp
  rw [hnone] at hsome
  cases hsome

/-- Concrete state for the C2 witness: empty registered side, one
preview snapshot. -/
def fsC2w : FsState :=
  { previewDir := some [⟨"W.json".toList, true, 4⟩]
    registeredDir := none }

/-- Witness for the amended C2 on `fsC2w`. -/
theorem resolveSnapshot_auto_preview_fallback_witness :
    (matchingSnapshots fsC2w .preview none ≠ [] →
      ∃ info, getLatestSnapshot fsC2w .preview none = some info ∧
        resolveSnapshot fsC2w .auto none = some ⟨.preview, info.filePath, info.stackName⟩ ∧
        ∀ t ∈ matchingSnapshots fsC2w .preview none, t.mtime ≤ info.mtime) ∧
    (resolveSnapshot fsC2w .auto none = none → matchingSnapshots fsC2w .preview none = []) :=
  resolveSnapshot_auto_preview_fallback fsC2w none (by decide) (fun _ => by decide)

/-- Concrete state for C10: the registered directory holds only `.json`
entries failing the strict pattern, the preview directory holds a
well-formed snapshot. -/
def fsC10 : FsState :=
  { previewDir := some [⟨"Good.json".toList, true, 5⟩]
    registeredDir := some [⟨"Stack-xyz.json".toList, true, 10⟩] }

/-- C10: there is a directory state on which `hasSnapshots` reports true
for the registered mode while `listSnapshots` returns the empty list for
it; there `resolveSnapshot` under `auto` with no stack filter commits to
the registered mode and returns "not found" even though well-formed
preview snapshots exist. -/
theorem hasSnapshots_listSnapshots_divergence :
    hasSnapshots fsC10 .registered = true ∧
    listSnapshots fsC10 .registered = [] ∧
    listSnapshots fsC10 .preview ≠ [] ∧
    resolveSnapshot fsC10 .auto none = none := by decide

end SnapshotDiscovery

namespace GenerateCommand

/-- Appending one snapshot to the grouping adds exactly that snapshot to
the multiset of grouped members. -/
theorem insertGrouped_flatten_perm (gs : List (String × List ResolvedSnapshot))
    (s : ResolvedSnapshot) :
    (((insertGrouped gs s).map Prod.snd).flatten).Perm
      ((gs.map Prod.snd).flatten ++ [s]) := by
  induction gs with
  | nil => simp [insertGrouped]
  | cons kg rest ih =>
    obtain ⟨k, g⟩ := kg
    rw [insertGrouped]
    by_cases hk : k = groupKey s
    · rw [if_pos hk]
      simp only [List.map_cons, List.flatten_cons]
      rw [List.append_assoc g, List.append_assoc g]
      exact List.Perm.append_left g List.perm_append_comm
    · rw [if_neg hk]
      simp only [List.map_cons, List.flatten_cons]
      rw [List.append_assoc g]
      exact List.Perm.append_left g ih

/-- Folding the grouping step over a snapshot list appends exactly those
snapshots to the grouped multiset. -/
theorem foldl_insertGrouped_flatten_perm (snapshots : List ResolvedSnapshot) :
    ∀ gs, (((snapshots.foldl insertGrouped gs).map Prod.snd).flatten).Perm
      ((gs.map Prod.snd).flatten ++ snapshots) := by
  induction snapshots with
  | nil => intro gs; simp
  | cons s rest ih =>
    intro gs
    rw [List.foldl_cons]
    have h := (ih (insertGrouped gs s)).trans
      (List.Perm.append_right rest (insertGrouped_flatten_perm gs s))
    rw [List.append_assoc] at h
    exact h

/-- The grouped members are a permutation of the input list. -/
theorem groupSnapshots_flatten_perm (snapshots : List ResolvedSnapshot) :
    (((groupSnapshots snapshots).map Prod.snd).flatten).Perm snapshots := by
  have h := foldl_insertGrouped_flatten_perm snapshots []
  simpa [groupSnapshots] using h

/-- Every group member carries its group's key. -/
def groupsWellKeyed (gs : List (String × List ResolvedSnapshot)) : Prop :=
  ∀ p ∈ gs, ∀ x ∈ p.2, groupKey x = p.1

theorem groupsWellKeyed_insertGrouped {gs : List (String × List ResolvedSnapshot)}
    (s : ResolvedSnapshot) (h : groupsWellKeyed gs) :
    groupsWellKeyed (insertGrouped gs s) := by
  induction gs with
  | nil =>
    intro p hp x hx
    rw [insertGrouped] at hp
    rcases List.mem_singleton.mp hp with rfl
    rcases List.mem_singleton.mp hx with rfl
    rfl
  | cons kg rest ih =>
    obtain ⟨k, g⟩ := kg
    have hhead : ∀ x ∈ g, groupKey x = k := fun x hx => h (k, g) (List.mem_cons_self _ _) x hx
    have hrest : groupsWellKeyed rest := fun p hp x hx => h p (List.mem_cons_of_mem _ hp) x hx
    rw [insertGrouped]
    by_cases hk : k = groupKey s
    · rw [if_pos hk]
      intro p hp x hx
      rcases List.mem_cons.mp hp with rfl | hp
      · rcases List.mem_append.mp hx with hx | hx
        · exact hhead x hx
        · rcases List.mem_singleton.mp hx with rfl
          exact hk.symm
      · exact hrest p hp x hx
    · rw [if_neg hk]
      intro p hp x hx
      rcases List.mem_cons.mp hp with rfl | hp
      · exact hhead x hx
      · exact ih hrest p hp x hx

/-- Keys after one grouping step come from the old keys or the new key. -/
theorem mem_keys_insertGrouped {gs : List (String × List ResolvedSnapshot)}
    {s : ResolvedSnapshot} {x : String}
    (hx : x ∈ (insertGrouped gs s).map Prod.fst) :
    x ∈ gs.map Prod.fst ∨ x = groupKey s := by
  induction gs with
  | nil =>
    rw [insertGrouped] at hx
    right
    simpa using hx
  | cons kg rest ih =>
    obtain ⟨k, g⟩ := kg
    rw [insertGrouped] at hx
    by_cases hk : k = groupKey s
    · rw [if_pos hk] at hx
      left
      simpa using hx
    · rw [if_neg hk] at hx
      simp only [List.map_cons, List.mem_cons] at hx ⊢
      rcases hx with rfl | hx
      · exact Or.inl (Or.inl rfl)
      · rcases ih hx with h | h
        · exact Or.inl (Or.inr h)
        · exact Or.inr h

/-- One grouping step preserves distinctness of the group keys. -/
theorem nodup_keys_insertGrouped {gs : List (String × List ResolvedSnapshot)}
    (s : ResolvedSnapshot) (h : (gs.map Prod.fst).Nodup) :
    ((insertGrouped gs s).map Prod.fst).Nodup := by
  induction gs with
  | nil =>
    rw [insertGrouped]
    simp
  | cons kg rest ih =>
    obtain ⟨k, g⟩ := kg
    simp only [List.map_cons, List.nodup_cons] at h
    obtain ⟨hknotin, hrest⟩ := h
    rw [insertGrouped]
    by_cases hk : k = groupKey s
    · rw [if_pos hk]
      simp only [List.map_cons, List.nodup_cons]
      exact ⟨hknotin, hrest⟩
    · rw [if_neg hk]
      simp only [List.map_cons, List.nodup_cons]
      refine ⟨?_, ih hrest⟩
      intro hmem
      rcases mem_keys_insertGrouped hmem with hmem | hmem
      · exact hknotin hmem
      · exact hk hmem

/-- The grouping fold keeps groups well-keyed and keys distinct. -/
theorem foldl_insertGrouped_invariant (snapshots : List ResolvedSnapshot) :
    ∀ gs, groupsWellKeyed gs → (gs.map Prod.fst).Nodup →
      groupsWellKeyed (snapshots.foldl insertGrouped gs) ∧
      ((snapshots.foldl insertGrouped gs).map Prod.fst).Nodup := by
  induction snapshots with
  | nil => intro gs h1 h2; exact ⟨h1, h2⟩
  | cons s rest ih =>
    intro gs h1 h2
    rw [List.foldl_cons]
    exact ih _ (groupsWellKeyed_insertGrouped s h1) (nodup_keys_insertGrouped s h2)

/-- C8: the grouping step of `generateFromSnapshots` is a total
partition: the members of the produced groups are a permutation of the
input (no snapshot dropped or duplicated), every member of a group has
that group's account/region/stack/datastore key, and the group keys are
pairwise distinct — so every input snapshot is assigned to exactly one
group. -/
theorem groupSnapshots_total_partition (snapshots : List ResolvedSnapshot) :
    (((groupSnapshots snapshots).map Prod.snd).flatten).Perm snapshots ∧
    (∀ p ∈ groupSnapshots snapshots, ∀ x ∈ p.2, groupKey x = p.1) ∧
    ((groupSnapshots snapshots).map Prod.fst).Nodup := by
  obtain ⟨h1, h2⟩ := foldl_insertGrouped_invariant snapshots []
    (fun p hp => absurd hp (List.not_mem_nil p)) List.nodup_nil
  exact ⟨groupSnapshots_flatten_perm snapshots, h1, h2⟩

end GenerateCommand

namespace GenerateCommand

/-- The exit flag of `generateFromSnapshots` is the positivity of the
failure count over its own result list. -/
theorem generateFromSnapshots_snd (env : EnvConfig) (gen : Generator)
    (snapshots : List ResolvedSnapshot) (options : GenerateOptions) :
    (generateFromSnapshots env gen snapshots options).2 =
      decide (0 < (((generateFromSnapshots env gen snapshots options).1).filter
        fun r => r.success = false).length) := rfl

/-- C5: the orchestrator records one per-entity result for every input
snapshot — a generator failure for one entity is caught, recorded, and
processing continues over all remaining entities and table groups — and
the process-level exit is a failure exactly when at least one generation
failed. -/
theorem generateFromSnapshots_aggregates (env : EnvConfig) (gen : Generator)
    (snapshots : List ResolvedSnapshot) (options : GenerateOptions) :
    ((generateFromSnapshots env gen snapshots options).1).Perm
      (snapshots.map (runOne env gen options)) ∧
    (∀ s ∈ snapshots,
      runOne env gen options s ∈ (generateFromSnapshots env gen snapshots options).1) ∧
    ((generateFromSnapshots env gen snapshots options).2 = true ↔
      ∃ s ∈ snapshots, (runOne env gen options s).success = false) := by
  have hperm : ((generateFromSnapshots env gen snapshots options).1).Perm
      (snapshots.map (runOne env gen options)) :=
    (groupSnapshots_flatten_perm snapshots).map (runOne env gen options)
  refine ⟨hperm, ?_, ?_⟩
  · intro s hs
    exact hperm.mem_iff.mpr (List.mem_map_of_mem _ hs)
  · rw [generateFromSnapshots_snd]
    simp only [decide_eq_true_eq]
    rw [List.length_pos]
    constructor
    · intro hne
      obtain ⟨r, hr⟩ := List.exists_mem_of_ne_nil _ hne
      obtain ⟨hrmem, hrfail⟩ := List.mem_filter.mp hr
      have : r ∈ snapshots.map (runOne env gen options) := hperm.mem_iff.mp hrmem
      obtain ⟨s, hs, rfl⟩ := List.mem_map.mp this
      exact ⟨s, hs, by simpa using hrfail⟩
    · intro ⟨s, hs, hfail⟩ hnil
      have hmem : runOne env gen options s ∈
          (generateFromSnapshots env gen snapshots options).1 :=
        hperm.mem_iff.mpr (List.mem_map_of_mem _ hs)
      have : runOne env gen options s ∈
          ((generateFromSnapshots env gen snapshots options).1).filter
            (fun r => r.success = false) :=
        List.mem_filter.mpr ⟨hmem, by simpa using hfail⟩
      rw [hnil] at this
      cases this

/-- C4: region resolution prefers a declared (non-empty) region unless
it is the sentinel `'unknown'`; for the sentinel it falls back to
`AWS_REGION`, then `AWS_DEFAULT_REGION`, then the hard-coded
`'us-east-1'`; and when building table metadata the policy is applied
independently to the context-level and the resource-level region (the
resulting region field is one of the two independently resolved
values). -/
theorem region_resolution_policy (env : EnvConfig) (r a b : String)
    (hr1 : r ≠ "") (hr2 : r ≠ "unknown") (ha : a ≠ "") (hb : b ≠ "") :
    resolveRegion env (some r) = r ∧
    (∀ d, resolveRegion ⟨some a, d⟩ (some "unknown") = a) ∧
    resolveRegion ⟨none, some b⟩ (some "unknown") = b ∧
    resolveRegion ⟨none, none⟩ (some "unknown") = "us-east-1" ∧
    (∀ (dataStore : DynamoDBMetadata) (context : Option StackContext),
      (createTableMetadataFromSnapshot env dataStore context).region =
          resolveRegion env (context.bind (·.region)) ∨
      (createTableMetadataFromSnapshot env dataStore context).region =
          resolveRegion env dataStore.region) := by
  refine ⟨?_, ?_, ?_, ?_, ?_⟩
  · rw [resolveRegion]
    exact if_pos ⟨hr1, hr2⟩
  · intro d
    rw [resolveRegion]
    rw [if_neg (by simp)]
    simp [envRegionFallback, truthy, ha]
  · rw [resolveRegion]
    rw [if_neg (by simp)]
    simp [envRegionFallback, truthy, hb]
  · rw [resolveRegion]
    rw [if_neg (by simp)]
    simp [envRegionFallback, truthy]
  · intro dataStore context
    rw [createTableMetadataFromSnapshot]
    by_cases hc : resolveRegion env (context.bind (·.region)) ≠ "us-east-1" ∨
        truthy dataStore.region = false
    · left
      simp only [if_pos hc]
    · right
      simp only [if_neg hc]

/-- Witness for C4 at concrete regions and an empty environment. -/
theorem region_resolution_policy_witness :
    resolveRegion ⟨none, none⟩ (some "eu-west-1") = "eu-west-1" ∧
    (∀ d, resolveRegion ⟨some "ap-south-1", d⟩ (some "unknown") = "ap-south-1") ∧
    resolveRegion ⟨none, some "sa-east-1"⟩ (some "unknown") = "sa-east-1" ∧
    resolveRegion ⟨none, none⟩ (some "unknown") = "us-east-1" ∧
    (∀ (dataStore : DynamoDBMetadata) (context : Option StackContext),
      (createTableMetadataFromSnapshot ⟨none, none⟩ dataStore context).region =
          resolveRegion ⟨none, none⟩ (context.bind (·.region)) ∨
      (createTableMetadataFromSnapshot ⟨none, none⟩ dataStore context).region =
          resolveRegion ⟨none, none⟩ dataStore.region) :=
  region_resolution_policy ⟨none, none⟩ "eu-west-1" "ap-south-1" "sa-east-1"
    (by decide) (by decide) (by decide) (by decide)

end GenerateCommand

namespace GenerateCommand

/-- Resource metadata shared by the C3 scenario snapshots. -/
def dsC3 : DynamoDBMetadata :=
  { name := some "Users"
    tableName := some "Users"
    arn := none
    tableArn := some "arn:aws:dynamodb:us-east-1:123:table/Users"
    region := some "us-east-1"
    partitionKey := some "id"
    sortKey := none
    globalSecondaryIndexes := []
    localSecondaryIndexes := [] }

/-- C3 scenario: an UPSERT snapshot for entity `User` on table `Users`. -/
def upsertC3 : ResolvedSnapshot :=
  { accountId := "123"
    region := "us-east-1"
    stackName := "MyStack"
    datastoreType := "dynamodb"
    entityName := "User"
    resourceName := "Users"
    action := .UPSERT
    schema := some "user-schema"
    dataStore := dsC3
    context := some ⟨some "us-east-1"⟩ }

/-- C3 scenario: a DELETE snapshot (schema absent) for entity `Gone` on
the same table. -/
def deleteC3 : ResolvedSnapshot :=
  { upsertC3 with entityName := "Gone", action := .DELETE, schema := none }

/-- A generator that succeeds exactly when it receives a schema; being
invoked without one is observable as a recorded failure. -/
def probeGen : Generator := fun schema _ _ _ =>
  match schema with
  | some _ => Except.ok ()
  | none => Except.error "generator invoked without a schema"

/-- C3 evaluated on the failing input: the DELETE snapshot is counted in
the same table group as the surviving entity (second conjunct), but the
orchestrator still invokes the external generator for it — the result
list records a generator invocation for entity `Gone` (with its absent
schema), and the run exits with failure.  The claim's "no call to the
external generator is made for it" is violated by the code. -/
theorem delete_snapshot_reaches_generator :
    deleteC3.action = SnapshotAction.DELETE ∧ deleteC3.schema = none ∧
    (groupSnapshots [upsertC3, deleteC3]).map (fun p => p.2.map (·.entityName)) =
      [["User", "Gone"]] ∧
    (generateFromSnapshots ⟨none, none⟩ probeGen [upsertC3, deleteC3]
        ⟨"com.example.model", "./src/main/java"⟩).1 =
      [⟨"User", "Users", true, none⟩,
       ⟨"Gone", "Users", false, some "generator invoked without a schema"⟩] ∧
    (generateFromSnapshots ⟨none, none⟩ probeGen [upsertC3, deleteC3]
        ⟨"com.example.model", "./src/main/java"⟩).2 = true := by
  refine ⟨rfl, rfl, ?_, ?_, ?_⟩ <;> decide

end GenerateCommand
